import Mathlib

/-
Shallow embedding of the robot simulation (src/untitled1/main.cpp).
Machine integers (uint32_t) are modelled as Nat; every arithmetic
operation in the source either clamps at zero explicitly (ternary
guards before subtraction) or, in the single place where unsigned
overflow is reachable (InfantryRobot::AddHeat), is modelled with an
explicit % 2^32.
-/

namespace RobotSim

/-- RobotType mirrors the C++ enum class RobotType (kInfantry = 0, kEngineer = 1). -/
inductive RobotType where
  | kInfantry
  | kEngineer
deriving DecidableEq, Repr

/-- Robot mirrors the data carried by BaseRobot: team_id, robot_id, the dynamic
kind tag (in C++ the concrete subclass, observable through GetType), blood_,
heat_, max_blood_, max_heat_ and level_ (all uint32_t). -/
structure Robot where
  team_id : Nat
  robot_id : Nat
  rtype : RobotType
  blood : Nat
  heat : Nat
  max_blood : Nat
  max_heat : Nat
  level : Nat
deriving DecidableEq, Repr

/-- BaseRobot::IsDead: blood_ <= 0, which for an unsigned field is blood_ == 0. -/
def IsDead (r : Robot) : Bool := r.blood == 0

/-- BaseRobot::ChangeHeat(time_delta): first heat_ is lowered by time_delta,
clamped at 0 by the ternary guard; then, comparing the already-updated heat_
against max_heat_, blood_ is lowered by the same time_delta (again clamped). -/
def ChangeHeat (r : Robot) (time_delta : Nat) : Robot :=
  { r with
    heat := if r.heat > time_delta then r.heat - time_delta else 0,
    blood :=
      if (if r.heat > time_delta then r.heat - time_delta else 0) > r.max_heat then
        (if r.blood > time_delta then r.blood - time_delta else 0)
      else r.blood }

/-- The level table inside InfantryRobot::Rebuild: (max_blood_, max_heat_)
per level, with the default branch for levels outside 1..3. -/
def infantryCaps : Nat → Nat × Nat
  | 1 => (100, 100)
  | 2 => (150, 200)
  | 3 => (250, 300)
  | _ => (100, 100)

/-- Rebuild, dispatched on the dynamic kind exactly as the virtual call does:
InfantryRobot::Rebuild zeroes heat_, re-derives max_blood_/max_heat_ from the
current level_ and restores blood_ to max_blood_; EngineerRobot::Rebuild sets
max_blood_ = 300, blood_ = 300, heat_ = 0, max_heat_ = 0. Neither touches level_. -/
def Rebuild (r : Robot) : Robot :=
  match r.rtype with
  | RobotType.kInfantry =>
      { r with heat := 0, max_blood := (infantryCaps r.level).1,
               max_heat := (infantryCaps r.level).2, blood := (infantryCaps r.level).1 }
  | RobotType.kEngineer =>
      { r with max_blood := 300, blood := 300, heat := 0, max_heat := 0 }

/-- The InfantryRobot constructor: base-class zero initialisation, level_ = 1,
then Rebuild. -/
def mkInfantry (t r : Nat) : Robot :=
  Rebuild { team_id := t, robot_id := r, rtype := RobotType.kInfantry,
            blood := 0, heat := 0, max_blood := 0, max_heat := 0, level := 1 }

/-- The EngineerRobot constructor: base-class zero initialisation (level_ = 1
from BaseRobot), then Rebuild. -/
def mkEngineer (t r : Nat) : Robot :=
  Rebuild { team_id := t, robot_id := r, rtype := RobotType.kEngineer,
            blood := 0, heat := 0, max_blood := 0, max_heat := 0, level := 1 }

/-- InfantryRobot::Upgrade(target_level): guarded by
target_level > level_ && target_level <= 3; on success level_ := target_level
followed by Rebuild, otherwise no change. -/
def Upgrade (r : Robot) (target_level : Nat) : Robot :=
  if target_level > r.level ∧ target_level ≤ 3 then
    Rebuild { r with level := target_level }
  else r

/-- InfantryRobot::AddHeat(add_heat): heat_ += add_heat on uint32_t, i.e. with
wraparound modulo 2^32. -/
def AddHeat (r : Robot) (add_heat : Nat) : Robot :=
  { r with heat := (r.heat + add_heat) % 2 ^ 32 }

/-- RobotManager state: the two vectors of shared_ptr (each pointer lives in at
most one vector between commands, so value lists are a faithful model) and
last_time_. -/
structure RobotManager where
  live_robots : List Robot
  dead_robots : List Robot
  last_time : Nat
deriving DecidableEq, Repr

/-- The (team_id, robot_id) match predicate used by both find loops and both
erase loops. -/
def liveKey (t r : Nat) (x : Robot) : Bool := decide (x.team_id = t ∧ x.robot_id = r)

/-- RobotManager::FindLiveRobot: first live robot whose GetId() matches. -/
def FindLiveRobot (m : RobotManager) (t r : Nat) : Option Robot :=
  m.live_robots.find? (liveKey t r)

/-- RobotManager::FindDeadRobot: first dead robot whose GetId() and GetType()
both match. -/
def FindDeadRobot (m : RobotManager) (t r : Nat) (k : RobotType) : Option Robot :=
  m.dead_robots.find? (fun x => liveKey t r x && decide (x.rtype = k))

/-- The loop body of RobotManager::HandleTimeChange: visit the live vector in
order, apply ChangeHeat, and split off robots that died, recording the newly
dead (in visit order) and one destruction event (team_id, robot_id) per death,
in visit order. -/
def timeStep : List Robot → Nat → List Robot × List Robot × List (Nat × Nat)
  | [], _ => ([], [], [])
  | x :: rest, delta =>
    let x2 := ChangeHeat x delta
    let out := timeStep rest delta
    if IsDead x2 then (out.1, x2 :: out.2.1, (x2.team_id, x2.robot_id) :: out.2.2)
    else (x2 :: out.1, out.2.1, out.2.2)

/-- RobotManager::HandleTimeChange(curr_time): early return when
curr_time <= last_time_; otherwise decay every live robot by
curr_time - last_time_, move the deaths to the dead vector (appended in visit
order), emit their events, and set last_time_ := curr_time. The second
component collects the emitted destruction events. -/
def HandleTimeChange (m : RobotManager) (curr_time : Nat) :
    RobotManager × List (Nat × Nat) :=
  if curr_time ≤ m.last_time then (m, [])
  else
    let out := timeStep m.live_robots (curr_time - m.last_time)
    ({ live_robots := out.1, dead_robots := m.dead_robots ++ out.2.1,
       last_time := curr_time }, out.2.2)

/-- RobotManager::HandleCommandA(team_id, robot_id, type): no-op when a live
robot matches; else revive a dead robot of the same kind (Rebuild, push to
live, then erase every dead entry matching (team_id, robot_id) regardless of
kind); else construct a fresh robot of the requested kind. -/
def HandleCommandA (m : RobotManager) (t r : Nat) (k : RobotType) : RobotManager :=
  if (FindLiveRobot m t r).isSome then m
  else
    match FindDeadRobot m t r k with
    | some robot =>
        { m with live_robots := m.live_robots ++ [Rebuild robot],
                 dead_robots := m.dead_robots.filter (fun x => !(liveKey t r x)) }
    | none =>
        match k with
        | RobotType.kInfantry => { m with live_robots := m.live_robots ++ [mkInfantry t r] }
        | RobotType.kEngineer => { m with live_robots := m.live_robots ++ [mkEngineer t r] }

/-- The in-place mutation through the shared_ptr returned by FindLiveRobot:
the first robot matching (t, r) in the vector is replaced by the updated
value y; the C++ code mutates exactly that object. -/
def updateFirstLive : List Robot → Nat → Nat → Robot → List Robot
  | [], _, _, _ => []
  | x :: rest, t, r, y =>
      if liveKey t r x then y :: rest else x :: updateFirstLive rest t r y

/-- RobotManager::HandleCommandF(team_id, robot_id, damage): no-op when no live
match (or the match is already dead); else blood_ is lowered by damage with the
clamping ternary; when the robot is now dead it is pushed to the dead vector,
one event is emitted, and every live entry matching the id pair is erased. The
second component collects the emitted destruction events. -/
def HandleCommandF (m : RobotManager) (t r damage : Nat) :
    RobotManager × List (Nat × Nat) :=
  match FindLiveRobot m t r with
  | none => (m, [])
  | some robot =>
    if IsDead robot then (m, [])
    else
      let robot2 := { robot with blood := if robot.blood > damage then robot.blood - damage else 0 }
      if IsDead robot2 then
        ({ m with dead_robots := m.dead_robots ++ [robot2],
                  live_robots := m.live_robots.filter (fun x => !(liveKey t r x)) }, [(t, r)])
      else
        ({ m with live_robots := updateFirstLive m.live_robots t r robot2 }, [])

/-- RobotManager::HandleCommandH(team_id, robot_id, add_heat): no-op when no
live match or the match is an Engineer; otherwise the dynamic cast to
InfantryRobot succeeds (the only two concrete classes are Infantry and
Engineer) and AddHeat runs on the matched robot. -/
def HandleCommandH (m : RobotManager) (t r add_heat : Nat) : RobotManager :=
  match FindLiveRobot m t r with
  | none => m
  | some robot =>
    if robot.rtype = RobotType.kEngineer then m
    else { m with live_robots := updateFirstLive m.live_robots t r (AddHeat robot add_heat) }

/-- RobotManager::HandCommandU(team_id, robot_id, target_level): no-op when no
live match or the match is an Engineer; otherwise Upgrade runs on the matched
robot (its Boolean result is discarded). -/
def HandCommandU (m : RobotManager) (t r target_level : Nat) : RobotManager :=
  match FindLiveRobot m t r with
  | none => m
  | some robot =>
    if robot.rtype = RobotType.kEngineer then m
    else { m with live_robots := updateFirstLive m.live_robots t r (Upgrade robot target_level) }

/-- A parsed input record as main() dispatches it: the four recognised command
tags, plus nop for an unrecognised tag (silently ignored by the dispatch
chain). -/
inductive Command where
  | A (t r : Nat) (k : RobotType)
  | F (t r damage : Nat)
  | H (t r add_heat : Nat)
  | U (t r target_level : Nat)
  | nop
deriving DecidableEq, Repr

/-- The dispatch chain of main() for one already-time-advanced record. -/
def dispatch (m : RobotManager) : Command → RobotManager × List (Nat × Nat)
  | Command.A t r k => (HandleCommandA m t r k, [])
  | Command.F t r d => HandleCommandF m t r d
  | Command.H t r a => (HandleCommandH m t r a, [])
  | Command.U t r l => (HandCommandU m t r l, [])
  | Command.nop => (m, [])

/-- One loop iteration of main(): HandleTimeChange for the record timestamp,
then the command dispatch; events are concatenated in emission order. -/
def processRecord (m : RobotManager) (time : Nat) (c : Command) :
    RobotManager × List (Nat × Nat) :=
  let out := HandleTimeChange m time
  let out2 := dispatch out.1 c
  (out2.1, out.2 ++ out2.2)

/-- Run a list of records through the main loop, keeping the final state. -/
def runRecords : RobotManager → List (Nat × Command) → RobotManager
  | m, [] => m
  | m, (time, c) :: rest => runRecords (processRecord m time c).1 rest

/-- The freshly constructed RobotManager of main(): empty vectors, last_time_ = 0. -/
def initManager : RobotManager := { live_robots := [], dead_robots := [], last_time := 0 }

/-- A registry state is reachable when some record sequence produces it from
the initial state. -/
def Reachable (m : RobotManager) : Prop :=
  ∃ recs : List (Nat × Command), runRecords initManager recs = m

/-! Field-preservation lemmas for the entity operations. -/

@[simp] lemma ChangeHeat_team_id (r : Robot) (d : Nat) : (ChangeHeat r d).team_id = r.team_id := rfl

@[simp] lemma ChangeHeat_robot_id (r : Robot) (d : Nat) : (ChangeHeat r d).robot_id = r.robot_id := rfl

@[simp] lemma ChangeHeat_rtype (r : Robot) (d : Nat) : (ChangeHeat r d).rtype = r.rtype := rfl

@[simp] lemma ChangeHeat_max_blood (r : Robot) (d : Nat) : (ChangeHeat r d).max_blood = r.max_blood := rfl

@[simp] lemma ChangeHeat_max_heat (r : Robot) (d : Nat) : (ChangeHeat r d).max_heat = r.max_heat := rfl

@[simp] lemma ChangeHeat_level (r : Robot) (d : Nat) : (ChangeHeat r d).level = r.level := rfl

@[simp] lemma Rebuild_team_id (r : Robot) : (Rebuild r).team_id = r.team_id := by
  cases h : r.rtype <;> simp [Rebuild, h]

@[simp] lemma Rebuild_robot_id (r : Robot) : (Rebuild r).robot_id = r.robot_id := by
  cases h : r.rtype <;> simp [Rebuild, h]

@[simp] lemma Rebuild_rtype (r : Robot) : (Rebuild r).rtype = r.rtype := by
  cases h : r.rtype <;> simp [Rebuild, h]

@[simp] lemma Rebuild_level (r : Robot) : (Rebuild r).level = r.level := by
  cases h : r.rtype <;> simp [Rebuild, h]

@[simp] lemma Rebuild_heat (r : Robot) : (Rebuild r).heat = 0 := by
  cases h : r.rtype <;> simp [Rebuild, h]

lemma Rebuild_blood_eq_max (r : Robot) : (Rebuild r).blood = (Rebuild r).max_blood := by
  cases h : r.rtype <;> simp [Rebuild, h]

lemma Rebuild_infantry (r : Robot) (h : r.rtype = RobotType.kInfantry) :
    (Rebuild r).max_blood = (infantryCaps r.level).1 ∧
    (Rebuild r).max_heat = (infantryCaps r.level).2 ∧
    (Rebuild r).blood = (infantryCaps r.level).1 := by
  simp [Rebuild, h]

lemma Rebuild_engineer (r : Robot) (h : r.rtype = RobotType.kEngineer) :
    (Rebuild r).max_blood = 300 ∧ (Rebuild r).blood = 300 ∧
    (Rebuild r).heat = 0 ∧ (Rebuild r).max_heat = 0 := by
  simp [Rebuild, h]

@[simp] lemma AddHeat_team_id (r : Robot) (a : Nat) : (AddHeat r a).team_id = r.team_id := rfl

@[simp] lemma AddHeat_robot_id (r : Robot) (a : Nat) : (AddHeat r a).robot_id = r.robot_id := rfl

@[simp] lemma AddHeat_rtype (r : Robot) (a : Nat) : (AddHeat r a).rtype = r.rtype := rfl

@[simp] lemma AddHeat_blood (r : Robot) (a : Nat) : (AddHeat r a).blood = r.blood := rfl

@[simp] lemma Upgrade_team_id (r : Robot) (l : Nat) : (Upgrade r l).team_id = r.team_id := by
  unfold Upgrade; split <;> simp

@[simp] lemma Upgrade_robot_id (r : Robot) (l : Nat) : (Upgrade r l).robot_id = r.robot_id := by
  unfold Upgrade; split <;> simp

@[simp] lemma Upgrade_rtype (r : Robot) (l : Nat) : (Upgrade r l).rtype = r.rtype := by
  unfold Upgrade; split <;> simp

/-! Lemmas about the in-place update of the first matching live robot. -/

lemma updateFirstLive_self (l : List Robot) (t r : Nat) (robot : Robot)
    (h : l.find? (liveKey t r) = some robot) : updateFirstLive l t r robot = l := by
  induction l with
  | nil => simp at h
  | cons x rest ih =>
    by_cases hx : liveKey t r x
    · rw [List.find?_cons_of_pos _ hx] at h
      injection h with h
      subst h
      unfold updateFirstLive
      rw [if_pos hx]
    · rw [List.find?_cons_of_neg _ hx] at h
      unfold updateFirstLive
      rw [if_neg hx, ih h]

lemma mem_updateFirstLive (l : List Robot) (t r : Nat) (y z : Robot)
    (h : z ∈ updateFirstLive l t r y) : z ∈ l ∨ z = y := by
  induction l with
  | nil => simp [updateFirstLive] at h
  | cons x rest ih =>
    unfold updateFirstLive at h
    by_cases hx : liveKey t r x
    · rw [if_pos hx] at h
      rcases List.mem_cons.mp h with h | h
      · exact Or.inr h
      · exact Or.inl (List.mem_cons_of_mem _ h)
    · rw [if_neg hx] at h
      rcases List.mem_cons.mp h with h | h
      · exact Or.inl (h ▸ List.mem_cons_self _ _)
      · rcases ih h with h | h
        · exact Or.inl (List.mem_cons_of_mem _ h)
        · exact Or.inr h

lemma find?_updateFirstLive (l : List Robot) (t r : Nat) (robot y : Robot)
    (h : l.find? (liveKey t r) = some robot) (hy : liveKey t r y = true) :
    (updateFirstLive l t r y).find? (liveKey t r) = some y := by
  induction l with
  | nil => simp at h
  | cons x rest ih =>
    by_cases hx : liveKey t r x
    · unfold updateFirstLive
      rw [if_pos hx]
      exact List.find?_cons_of_pos _ hy
    · rw [List.find?_cons_of_neg _ hx] at h
      unfold updateFirstLive
      rw [if_neg hx]
      rw [List.find?_cons_of_neg _ hx]
      exact ih h

/-- C1: for every live entity and elapsed time e > 0, the decay step sets
heat to max(heat - e, 0) and then, exactly when the already-decayed heat
strictly exceeds max_heat, sets health to max(health - e, 0) using the elapsed
time itself as the damage amount; otherwise health is unchanged. -/
theorem C1_decay_law (r : Robot) (e : Nat) (hLive : IsDead r = false) (he : 0 < e) :
    ((ChangeHeat r e).heat : Int) = max ((r.heat : Int) - (e : Int)) 0 ∧
    ((ChangeHeat r e).blood : Int) =
      (if (ChangeHeat r e).heat > r.max_heat then max ((r.blood : Int) - (e : Int)) 0
       else (r.blood : Int)) := by
  simp only [ChangeHeat]
  constructor
  · split <;> omega
  · by_cases hc : (if r.heat > e then r.heat - e else 0) > r.max_heat
    · simp only [if_pos hc]
      split <;> omega
    · simp only [if_neg hc]

/-- Concrete input for the C1 witness: a level-1 Infantry with heat 150 and
health 80. -/
def wC1robot : Robot := { mkInfantry 1 1 with heat := 150, blood := 80 }

/-- C1 witness: the level-1 Infantry with heat=150, health=80 decays after
elapsed=30 to heat=120 and health=50, matching the general decay law. -/
theorem C1_decay_law_witness :
    IsDead wC1robot = false ∧ (0 : Nat) < 30 ∧
    (ChangeHeat wC1robot 30).heat = 120 ∧ (ChangeHeat wC1robot 30).blood = 50 ∧
    (((ChangeHeat wC1robot 30).heat : Int) = max ((wC1robot.heat : Int) - (30 : Int)) 0 ∧
     ((ChangeHeat wC1robot 30).blood : Int) =
       (if (ChangeHeat wC1robot 30).heat > wC1robot.max_heat then
          max ((wC1robot.blood : Int) - (30 : Int)) 0
        else (wC1robot.blood : Int))) :=
  ⟨by decide, by decide, by decide, by decide, C1_decay_law wC1robot 30 (by decide) (by decide)⟩

/-- The records that produce the C2 counterexample state: an Infantry (1, 5)
is added at time 0 and immediately destroyed by a damage command. -/
def recsC2 : List (Nat × Command) :=
  [(0, Command.A 1 5 RobotType.kInfantry), (0, Command.F 1 5 100)]

/-- The C2 counterexample state: no live robot, one dead Infantry (1, 5). -/
def mC2 : RobotManager := runRecords initManager recsC2

/-- C2 counterexample: in the reachable state with a dead Infantry (1, 5) and
no live match, processing ADD with kind = Engineer does construct a fresh
Engineer, but the stale Infantry entry is still in the dead set afterwards,
contradicting the claimed purge: the dead-entry removal loop only runs in the
same-kind revival branch of HandleCommandA. -/
theorem C2_cross_kind_add_cex :
    (∃ d ∈ mC2.dead_robots, d.team_id = 1 ∧ d.robot_id = 5 ∧ d.rtype = RobotType.kInfantry) ∧
    FindLiveRobot mC2 1 5 = none ∧
    (HandleCommandA mC2 1 5 RobotType.kEngineer).live_robots =
      mC2.live_robots ++ [mkEngineer 1 5] ∧
    (∃ d ∈ (HandleCommandA mC2 1 5 RobotType.kEngineer).dead_robots,
       d.team_id = 1 ∧ d.robot_id = 5 ∧ d.rtype = RobotType.kInfantry) := by
  decide

/-- C2 (amended): for every registry state in which a dead Infantry entry
exists for (team_id, robot_id), no dead Engineer entry exists for that pair,
and no live entity matches, processing an ADD command with kind = Engineer
constructs a brand-new live Engineer (no revival of the dead Infantry) and
leaves the dead set unchanged: the stale Infantry entry is NOT removed. -/
theorem C2_cross_kind_add (m : RobotManager) (t r : Nat)
    (hLive : FindLiveRobot m t r = none)
    (hDeadEng : FindDeadRobot m t r RobotType.kEngineer = none)
    (hStale : ∃ d ∈ m.dead_robots, d.team_id = t ∧ d.robot_id = r ∧
        d.rtype = RobotType.kInfantry) :
    HandleCommandA m t r RobotType.kEngineer =
      { m with live_robots := m.live_robots ++ [mkEngineer t r] } ∧
    (HandleCommandA m t r RobotType.kEngineer).dead_robots = m.dead_robots := by
  have h1 : HandleCommandA m t r RobotType.kEngineer =
      { m with live_robots := m.live_robots ++ [mkEngineer t r] } := by
    simp [HandleCommandA, hLive, hDeadEng]
  exact ⟨h1, by rw [h1]⟩

/-- C2 witness: the amended statement applied to the concrete counterexample
state mC2. -/
theorem C2_cross_kind_add_witness :
    FindLiveRobot mC2 1 5 = none ∧
    FindDeadRobot mC2 1 5 RobotType.kEngineer = none ∧
    (HandleCommandA mC2 1 5 RobotType.kEngineer =
       { mC2 with live_robots := mC2.live_robots ++ [mkEngineer 1 5] } ∧
     (HandleCommandA mC2 1 5 RobotType.kEngineer).dead_robots = mC2.dead_robots) :=
  ⟨by decide, by decide, C2_cross_kind_add mC2 1 5 (by decide) (by decide) (by decide)⟩

/-- C3: an ADD whose (team_id, robot_id) matches no live entity but matches a
dead entity of the same kind moves that dead entity back to the live set after
a Rebuild (health = max_health, heat = 0, level untouched, caps re-derived from
the level held at death), and removes every dead entry sharing
(team_id, robot_id) regardless of kind. -/
theorem C3_same_kind_revival (m : RobotManager) (t r : Nat) (k : RobotType) (robot : Robot)
    (hLive : FindLiveRobot m t r = none)
    (hDead : FindDeadRobot m t r k = some robot) :
    HandleCommandA m t r k =
      { m with live_robots := m.live_robots ++ [Rebuild robot],
               dead_robots := m.dead_robots.filter (fun x => !(liveKey t r x)) } ∧
    (Rebuild robot).blood = (Rebuild robot).max_blood ∧
    (Rebuild robot).heat = 0 ∧
    (Rebuild robot).level = robot.level ∧
    (robot.rtype = RobotType.kInfantry →
       (Rebuild robot).max_blood = (infantryCaps robot.level).1 ∧
       (Rebuild robot).max_heat = (infantryCaps robot.level).2) ∧
    ∀ x ∈ (HandleCommandA m t r k).dead_robots, ¬(x.team_id = t ∧ x.robot_id = r) := by
  have h1 : HandleCommandA m t r k =
      { m with live_robots := m.live_robots ++ [Rebuild robot],
               dead_robots := m.dead_robots.filter (fun x => !(liveKey t r x)) } := by
    simp [HandleCommandA, hLive, hDead]
  refine ⟨h1, Rebuild_blood_eq_max robot, Rebuild_heat robot, Rebuild_level robot, ?_, ?_⟩
  · intro hk
    exact ⟨(Rebuild_infantry robot hk).1, (Rebuild_infantry robot hk).2.1⟩
  · intro x hx
    rw [h1] at hx
    simp only [List.mem_filter] at hx
    have h2 := hx.2
    simp [liveKey] at h2
    tauto

/-- The records that produce the C3 witness state: an Infantry (2, 7) is
added, upgraded to level 2, and destroyed. -/
def recsC3 : List (Nat × Command) :=
  [(0, Command.A 2 7 RobotType.kInfantry), (0, Command.U 2 7 2), (0, Command.F 2 7 999)]

/-- The C3 witness state: one dead level-2 Infantry (2, 7). -/
def mC3 : RobotManager := runRecords initManager recsC3

/-- C3 witness: reviving the dead level-2 Infantry (2, 7) restores full
level-2 health and zero heat without resetting its level, and empties the
dead entries for (2, 7). -/
theorem C3_same_kind_revival_witness :
    FindLiveRobot mC3 2 7 = none ∧
    (∃ d, FindDeadRobot mC3 2 7 RobotType.kInfantry = some d ∧ d.level = 2 ∧ d.blood = 0) ∧
    (HandleCommandA mC3 2 7 RobotType.kInfantry =
       { mC3 with
         live_robots := mC3.live_robots ++
           [Rebuild (mC3.dead_robots.head (by decide))],
         dead_robots := mC3.dead_robots.filter (fun x => !(liveKey 2 7 x)) } ∧
     (Rebuild (mC3.dead_robots.head (by decide))).blood =
       (Rebuild (mC3.dead_robots.head (by decide))).max_blood ∧
     (Rebuild (mC3.dead_robots.head (by decide))).heat = 0 ∧
     (Rebuild (mC3.dead_robots.head (by decide))).level =
       (mC3.dead_robots.head (by decide)).level ∧
     ((mC3.dead_robots.head (by decide)).rtype = RobotType.kInfantry →
        (Rebuild (mC3.dead_robots.head (by decide))).max_blood =
          (infantryCaps (mC3.dead_robots.head (by decide)).level).1 ∧
        (Rebuild (mC3.dead_robots.head (by decide))).max_heat =
          (infantryCaps (mC3.dead_robots.head (by decide)).level).2) ∧
     ∀ x ∈ (HandleCommandA mC3 2 7 RobotType.kInfantry).dead_robots,
       ¬(x.team_id = 2 ∧ x.robot_id = 7)) :=
  ⟨by decide, ⟨mC3.dead_robots.head (by decide), by decide, by decide, by decide⟩,
   C3_same_kind_revival mC3 2 7 RobotType.kInfantry (mC3.dead_robots.head (by decide))
     (by decide) (by decide)⟩

/-- C6: an UPGRADE command against a live Infantry at level L with target T
succeeds exactly when T > L and T <= 3; on success the level becomes T and
health and heat are fully reset to the level-T caps; on failure no field of
the entity changes and the whole registry is unchanged. -/
theorem C6_upgrade_contract (m : RobotManager) (t r T : Nat) (robot : Robot)
    (hFind : FindLiveRobot m t r = some robot)
    (hInf : robot.rtype = RobotType.kInfantry) :
    HandCommandU m t r T =
      { m with live_robots := updateFirstLive m.live_robots t r (Upgrade robot T) } ∧
    (T > robot.level ∧ T ≤ 3 →
       (Upgrade robot T).level = T ∧
       (Upgrade robot T).blood = (infantryCaps T).1 ∧
       (Upgrade robot T).max_blood = (infantryCaps T).1 ∧
       (Upgrade robot T).max_heat = (infantryCaps T).2 ∧
       (Upgrade robot T).heat = 0) ∧
    (¬(T > robot.level ∧ T ≤ 3) →
       Upgrade robot T = robot ∧ HandCommandU m t r T = m) := by
  have hdisp : HandCommandU m t r T =
      { m with live_robots := updateFirstLive m.live_robots t r (Upgrade robot T) } := by
    simp [HandCommandU, hFind, hInf]
  refine ⟨hdisp, ?_, ?_⟩
  · intro hT
    have h1 : Upgrade robot T = Rebuild { robot with level := T } := by
      unfold Upgrade
      rw [if_pos hT]
    rw [h1]
    simp [Rebuild, hInf]
  · intro hT
    have h1 : Upgrade robot T = robot := by
      unfold Upgrade
      rw [if_neg hT]
    refine ⟨h1, ?_⟩
    rw [hdisp, h1, updateFirstLive_self m.live_robots t r robot hFind]

/-- The C6 witness state: one live level-2 Infantry (1, 1). -/
def mC6 : RobotManager :=
  { live_robots := [Upgrade (mkInfantry 1 1) 2], dead_robots := [], last_time := 0 }

/-- C6 witness: against the live level-2 Infantry, target 3 is accepted with a
full reset to level-3 caps while target 2 is rejected with no state change at
all. -/
theorem C6_upgrade_contract_witness :
    FindLiveRobot mC6 1 1 = some (Upgrade (mkInfantry 1 1) 2) ∧
    (Upgrade (mkInfantry 1 1) 2).rtype = RobotType.kInfantry ∧
    ((3 : Nat) > (Upgrade (mkInfantry 1 1) 2).level ∧ (3 : Nat) ≤ 3) ∧
    ((Upgrade (Upgrade (mkInfantry 1 1) 2) 3).level = 3 ∧
     (Upgrade (Upgrade (mkInfantry 1 1) 2) 3).blood = (infantryCaps 3).1 ∧
     (Upgrade (Upgrade (mkInfantry 1 1) 2) 3).max_blood = (infantryCaps 3).1 ∧
     (Upgrade (Upgrade (mkInfantry 1 1) 2) 3).max_heat = (infantryCaps 3).2 ∧
     (Upgrade (Upgrade (mkInfantry 1 1) 2) 3).heat = 0) ∧
    (Upgrade (Upgrade (mkInfantry 1 1) 2) 2 = Upgrade (mkInfantry 1 1) 2 ∧
     HandCommandU mC6 1 1 2 = mC6) :=
  ⟨by decide, by decide, by decide,
   (C6_upgrade_contract mC6 1 1 3 (Upgrade (mkInfantry 1 1) 2)
      (by decide) (by decide)).2.1 (by decide),
   (C6_upgrade_contract mC6 1 1 2 (Upgrade (mkInfantry 1 1) 2)
      (by decide) (by decide)).2.2 (by decide)⟩

/-- C7: an ADD command whose (team_id, robot_id) matches a live entity leaves
the entire registry state unchanged, whatever kind operand it carries. -/
theorem C7_add_ignored_while_alive (m : RobotManager) (t r : Nat) (k : RobotType)
    (robot : Robot) (h : FindLiveRobot m t r = some robot) :
    HandleCommandA m t r k = m := by
  simp [HandleCommandA, h]

/-- The C7 witness state: one live Infantry (1, 1) and one dead Engineer
(1, 1) sharing the id pair. -/
def mC7 : RobotManager :=
  { live_robots := [mkInfantry 1 1],
    dead_robots := [{ mkEngineer 1 1 with blood := 0 }], last_time := 3 }

/-- C7 witness: ADD on the already-live (1, 1), with a kind that differs from
the live Infantry, changes nothing. -/
theorem C7_add_ignored_while_alive_witness :
    FindLiveRobot mC7 1 1 = some (mkInfantry 1 1) ∧
    HandleCommandA mC7 1 1 RobotType.kEngineer = mC7 :=
  ⟨by decide, C7_add_ignored_while_alive mC7 1 1 RobotType.kEngineer (mkInfantry 1 1) (by decide)⟩

/-- C10: a HEAT command against a live Infantry stores
(heat + amount) mod 2^32 (unsigned 32-bit wraparound, exactly the uint32_t
heat_ += add_heat of the source), and consequently there are inputs with
heat + amount >= 2^32 on which a HEAT command strictly decreases the stored
heat. -/
theorem C10_heat_wraparound (m : RobotManager) (t r a : Nat) (robot : Robot)
    (hFind : FindLiveRobot m t r = some robot)
    (hInf : robot.rtype = RobotType.kInfantry) :
    HandleCommandH m t r a =
      { m with live_robots := updateFirstLive m.live_robots t r (AddHeat robot a) } ∧
    (AddHeat robot a).heat = (robot.heat + a) % 2 ^ 32 ∧
    ∃ r0 : Robot, ∃ a0 : Nat, 2 ^ 32 ≤ r0.heat + a0 ∧ (AddHeat r0 a0).heat < r0.heat := by
  refine ⟨?_, rfl, ?_⟩
  · simp [HandleCommandH, hFind, hInf]
  · refine ⟨{ mkInfantry 0 0 with heat := 2 ^ 32 - 1 }, 2, by decide, by decide⟩

/-- The C10 witness state: one live level-1 Infantry (4, 2) whose heat is
already 2^32 - 1. -/
def mC10 : RobotManager :=
  { live_robots := [{ mkInfantry 4 2 with heat := 2 ^ 32 - 1 }],
    dead_robots := [], last_time := 0 }

/-- C10 witness: HEAT with amount 10 against the heat-saturated Infantry
stores (2^32 - 1 + 10) mod 2^32 = 9, strictly less than before. -/
theorem C10_heat_wraparound_witness :
    FindLiveRobot mC10 4 2 = some { mkInfantry 4 2 with heat := 2 ^ 32 - 1 } ∧
    (AddHeat { mkInfantry 4 2 with heat := 2 ^ 32 - 1 } 10).heat = 9 ∧
    (HandleCommandH mC10 4 2 10 =
       { mC10 with
         live_robots :=
           updateFirstLive mC10.live_robots 4 2
             (AddHeat { mkInfantry 4 2 with heat := 2 ^ 32 - 1 } 10) } ∧
     (AddHeat { mkInfantry 4 2 with heat := 2 ^ 32 - 1 } 10).heat =
       (({ mkInfantry 4 2 with heat := 2 ^ 32 - 1 } : Robot).heat + 10) % 2 ^ 32 ∧
     ∃ r0 : Robot, ∃ a0 : Nat, 2 ^ 32 ≤ r0.heat + a0 ∧ (AddHeat r0 a0).heat < r0.heat) :=
  ⟨by decide, by decide,
   C10_heat_wraparound mC10 4 2 10 { mkInfantry 4 2 with heat := 2 ^ 32 - 1 }
     (by decide) (by decide)⟩

/-! The time-advancement loop, characterised as map-then-partition. -/

lemma timeStep_eq (l : List Robot) (d : Nat) :
    timeStep l d =
      ((l.map (fun x => ChangeHeat x d)).filter (fun x => !(IsDead x)),
       (l.map (fun x => ChangeHeat x d)).filter (fun x => IsDead x),
       ((l.map (fun x => ChangeHeat x d)).filter (fun x => IsDead x)).map
         (fun x => (x.team_id, x.robot_id))) := by
  induction l with
  | nil => rfl
  | cons x rest ih =>
    simp only [timeStep, ih, List.map_cons, List.filter_cons]
    by_cases h : IsDead (ChangeHeat x d)
    · simp [h]
    · simp [h]

/-- C4: advance_time is a no-op when curr_time <= last_time; otherwise every
live entity decays by elapsed = curr_time - last_time, the entities whose
health reached 0 move from live to dead (appended in the stable visit order of
the live collection) with one destruction event each, emitted exactly in that
order, and last_time becomes curr_time — so last_time never decreases. -/
theorem C4_advance_time (m : RobotManager) (curr : Nat) :
    (curr ≤ m.last_time → HandleTimeChange m curr = (m, [])) ∧
    (m.last_time < curr →
       (HandleTimeChange m curr).1.live_robots =
         (m.live_robots.map (fun x => ChangeHeat x (curr - m.last_time))).filter
           (fun x => !(IsDead x)) ∧
       (HandleTimeChange m curr).1.dead_robots =
         m.dead_robots ++
           (m.live_robots.map (fun x => ChangeHeat x (curr - m.last_time))).filter
             (fun x => IsDead x) ∧
       (HandleTimeChange m curr).2 =
         ((m.live_robots.map (fun x => ChangeHeat x (curr - m.last_time))).filter
             (fun x => IsDead x)).map (fun x => (x.team_id, x.robot_id)) ∧
       (HandleTimeChange m curr).1.last_time = curr) ∧
    m.last_time ≤ (HandleTimeChange m curr).1.last_time := by
  refine ⟨?_, ?_, ?_⟩
  · intro h
    simp [HandleTimeChange, h]
  · intro h
    have hn : ¬ curr ≤ m.last_time := by omega
    simp [HandleTimeChange, hn, timeStep_eq]
  · by_cases h : curr ≤ m.last_time
    · simp [HandleTimeChange, h]
    · simp only [HandleTimeChange, if_neg h]
      omega

/-- The C4 witness state: two live Infantry robots, one of which (heat 500,
health 20) will die from overheat during the next advancement;
last_time = 50. -/
def mC4 : RobotManager :=
  { live_robots := [{ mkInfantry 1 1 with heat := 500, blood := 20 }, mkInfantry 1 2],
    dead_robots := [], last_time := 50 }

/-- C4 witness: advancing the two-robot state from time 50 to 80 decays both
robots, kills exactly the overheated one, emits its event, and sets last_time
to 80. -/
theorem C4_advance_time_witness :
    mC4.last_time < 80 ∧
    ((HandleTimeChange mC4 80).1.live_robots =
       (mC4.live_robots.map (fun x => ChangeHeat x (80 - mC4.last_time))).filter
         (fun x => !(IsDead x)) ∧
     (HandleTimeChange mC4 80).1.dead_robots =
       mC4.dead_robots ++
         (mC4.live_robots.map (fun x => ChangeHeat x (80 - mC4.last_time))).filter
           (fun x => IsDead x) ∧
     (HandleTimeChange mC4 80).2 =
       ((mC4.live_robots.map (fun x => ChangeHeat x (80 - mC4.last_time))).filter
           (fun x => IsDead x)).map (fun x => (x.team_id, x.robot_id)) ∧
     (HandleTimeChange mC4 80).1.last_time = 80) ∧
    (HandleTimeChange mC4 80).2 = [(1, 1)] :=
  ⟨by decide, (C4_advance_time mC4 80).2.1 (by decide), by decide⟩

/-! The damage command and its branch characterisations. -/

lemma FindLiveRobot_def (m : RobotManager) (t r : Nat) :
    FindLiveRobot m t r = m.live_robots.find? (liveKey t r) := rfl

lemma HandleCommandF_no_match (m : RobotManager) (t r d : Nat)
    (h : FindLiveRobot m t r = none) : HandleCommandF m t r d = (m, []) := by
  simp [HandleCommandF, h]

lemma HandleCommandF_already_dead (m : RobotManager) (t r d : Nat) (robot : Robot)
    (hFind : FindLiveRobot m t r = some robot) (hDead : IsDead robot = true) :
    HandleCommandF m t r d = (m, []) := by
  simp [HandleCommandF, hFind, hDead]

lemma HandleCommandF_kill (m : RobotManager) (t r d : Nat) (robot : Robot)
    (hFind : FindLiveRobot m t r = some robot) (hDead : IsDead robot = false)
    (h0 : robot.blood ≤ d) :
    HandleCommandF m t r d =
      ({ m with dead_robots := m.dead_robots ++ [{ robot with blood := 0 }],
                live_robots := m.live_robots.filter (fun x => !(liveKey t r x)) },
       [(t, r)]) := by
  have hbz : robot.blood ≠ 0 := by simpa [IsDead] using hDead
  have hb : (if robot.blood > d then robot.blood - d else 0) = 0 := by
    rw [if_neg]
    omega
  simp [HandleCommandF, hFind, hDead, hb, IsDead, hbz]

lemma HandleCommandF_survive (m : RobotManager) (t r d : Nat) (robot : Robot)
    (hFind : FindLiveRobot m t r = some robot) (hDead : IsDead robot = false)
    (h0 : d < robot.blood) :
    HandleCommandF m t r d =
      ({ m with live_robots :=
           updateFirstLive m.live_robots t r { robot with blood := robot.blood - d } },
       []) := by
  have hbz : robot.blood ≠ 0 := by simpa [IsDead] using hDead
  have hb : (if robot.blood > d then robot.blood - d else 0) = robot.blood - d := by
    rw [if_pos]
    omega
  have hnz : ({ robot with blood := robot.blood - d } : Robot).blood ≠ 0 := by
    simp
    omega
  simp [HandleCommandF, hFind, hDead, hb, IsDead, hnz, hbz]

lemma find?_filter_not_key (l : List Robot) (t r : Nat) :
    (l.filter (fun x => !(liveKey t r x))).find? (liveKey t r) = none := by
  rw [List.find?_eq_none]
  intro x hx
  rcases List.mem_filter.mp hx with ⟨-, h2⟩
  simpa using h2

/-- Iterate HandleCommandF for a list of damage amounts against one id pair. -/
def applyDamages (t r : Nat) : RobotManager → List Nat → RobotManager
  | m, [] => m
  | m, d :: ds => applyDamages t r (HandleCommandF m t r d).1 ds

lemma applyDamages_no_match (t r : Nat) (ds : List Nat) :
    ∀ m : RobotManager, FindLiveRobot m t r = none → applyDamages t r m ds = m := by
  induction ds with
  | nil => intro m h; rfl
  | cons d ds ih =>
    intro m h
    show applyDamages t r (HandleCommandF m t r d).1 ds = m
    rw [HandleCommandF_no_match m t r d h]
    exact ih m h

lemma applyDamages_mono (t r : Nat) (ds : List Nat) :
    ∀ (m : RobotManager) (robot : Robot), FindLiveRobot m t r = some robot →
      ∀ x, FindLiveRobot (applyDamages t r m ds) t r = some x → x.blood ≤ robot.blood := by
  induction ds with
  | nil =>
    intro m robot h x hx
    rw [show applyDamages t r m [] = m from rfl, h] at hx
    injection hx with hx
    subst hx
    exact le_refl _
  | cons d ds ih =>
    intro m robot h x hx
    rw [show applyDamages t r m (d :: ds) = applyDamages t r (HandleCommandF m t r d).1 ds
          from rfl] at hx
    by_cases hdead : IsDead robot
    · rw [HandleCommandF_already_dead m t r d robot h hdead] at hx
      exact ih m robot h x hx
    · have hdead2 : IsDead robot = false := by simpa using hdead
      by_cases h0 : robot.blood ≤ d
      · rw [HandleCommandF_kill m t r d robot h hdead2 h0] at hx
        have hnone : FindLiveRobot
            ({ m with dead_robots := m.dead_robots ++ [{ robot with blood := 0 }],
                      live_robots := m.live_robots.filter (fun x => !(liveKey t r x)) })
            t r = none := by
          rw [FindLiveRobot_def]
          exact find?_filter_not_key m.live_robots t r
        rw [applyDamages_no_match t r ds _ hnone, hnone] at hx
        simp at hx
      · have hkey : liveKey t r robot = true := by
          have := List.find?_some (p := liveKey t r) (by rw [← FindLiveRobot_def]; exact h)
          exact this
        have hkey2 : liveKey t r ({ robot with blood := robot.blood - d } : Robot) = true :=
          hkey
        have hsome : FindLiveRobot
            ({ m with live_robots :=
                 updateFirstLive m.live_robots t r { robot with blood := robot.blood - d } })
            t r = some { robot with blood := robot.blood - d } := by
          rw [FindLiveRobot_def]
          exact find?_updateFirstLive m.live_robots t r robot _
            (by rw [← FindLiveRobot_def]; exact h) hkey2
        rw [HandleCommandF_survive m t r d robot h hdead2 (by omega)] at hx
        have hle := ih _ _ hsome x hx
        simp at hle
        omega

/-- C5: a DAMAGE command with no live match is a no-op; against a live match
it sets health to max(health - amount, 0), and when health reaches 0 the
entity moves from live to dead with one destruction event (team_id, robot_id);
consequently over any sequence of DAMAGE commands the health of the matching
live entity is monotonically non-increasing and never goes below 0. -/
theorem C5_damage (m : RobotManager) (t r d : Nat) :
    (FindLiveRobot m t r = none → HandleCommandF m t r d = (m, [])) ∧
    (∀ robot, FindLiveRobot m t r = some robot → IsDead robot = false →
       (((if robot.blood > d then robot.blood - d else 0 : Nat) : Int) =
          max ((robot.blood : Int) - (d : Int)) 0) ∧
       (robot.blood ≤ d →
          HandleCommandF m t r d =
            ({ m with dead_robots := m.dead_robots ++ [{ robot with blood := 0 }],
                      live_robots := m.live_robots.filter (fun x => !(liveKey t r x)) },
             [(t, r)])) ∧
       (d < robot.blood →
          HandleCommandF m t r d =
            ({ m with live_robots :=
                 updateFirstLive m.live_robots t r { robot with blood := robot.blood - d } },
             []))) ∧
    (∀ robot, FindLiveRobot m t r = some robot →
       ∀ ds x, FindLiveRobot (applyDamages t r m ds) t r = some x →
         x.blood ≤ robot.blood) := by
  refine ⟨HandleCommandF_no_match m t r d, ?_, ?_⟩
  · intro robot hFind hDead
    refine ⟨by split <;> omega, ?_, ?_⟩
    · intro h0
      exact HandleCommandF_kill m t r d robot hFind hDead h0
    · intro h0
      exact HandleCommandF_survive m t r d robot hFind hDead h0
  · intro robot hFind ds x hx
    exact applyDamages_mono t r ds m robot hFind x hx

/-- The C5 witness state: one live level-1 Infantry (3, 3) at full health. -/
def mC5 : RobotManager :=
  { live_robots := [mkInfantry 3 3], dead_robots := [], last_time := 0 }

/-- C5 witness: damage 250 kills the full-health Infantry (3, 3), moving it to
the dead set with one event; two smaller damage commands (30 then 40) leave a
live robot whose health 30 is below the original 100. -/
theorem C5_damage_witness :
    FindLiveRobot mC5 3 3 = some (mkInfantry 3 3) ∧
    IsDead (mkInfantry 3 3) = false ∧
    (mkInfantry 3 3).blood ≤ 250 ∧
    ((((if (mkInfantry 3 3).blood > 250 then (mkInfantry 3 3).blood - 250 else 0 : Nat) : Int) =
        max (((mkInfantry 3 3).blood : Int) - (250 : Int)) 0) ∧
     ((mkInfantry 3 3).blood ≤ 250 →
        HandleCommandF mC5 3 3 250 =
          ({ mC5 with
             dead_robots := mC5.dead_robots ++ [{ mkInfantry 3 3 with blood := 0 }],
             live_robots := mC5.live_robots.filter (fun x => !(liveKey 3 3 x)) },
           [(3, 3)])) ∧
     (250 < (mkInfantry 3 3).blood →
        HandleCommandF mC5 3 3 250 =
          ({ mC5 with
             live_robots := updateFirstLive mC5.live_robots 3 3
               { mkInfantry 3 3 with blood := (mkInfantry 3 3).blood - 250 } },
           []))) ∧
    FindLiveRobot (applyDamages 3 3 mC5 [30, 40]) 3 3 =
      some { mkInfantry 3 3 with blood := 30 } ∧
    ({ mkInfantry 3 3 with blood := 30 } : Robot).blood ≤ (mkInfantry 3 3).blood :=
  ⟨by decide, by decide, by decide,
   (C5_damage mC5 3 3 250).2.1 (mkInfantry 3 3) (by decide) (by decide),
   by decide,
   (C5_damage mC5 3 3 250).2.2 (mkInfantry 3 3) (by decide) [30, 40]
     { mkInfantry 3 3 with blood := 30 } (by decide)⟩

/-! Registry invariants preserved by every command and by time advancement. -/

/-- No (team_id, robot_id, kind) triple is simultaneously in live and dead. -/
def LiveDeadDisjoint (m : RobotManager) : Prop :=
  ∀ a ∈ m.live_robots, ∀ b ∈ m.dead_robots,
    ¬(a.team_id = b.team_id ∧ a.robot_id = b.robot_id ∧ a.rtype = b.rtype)

/-- The live collection holds at most one robot per (team_id, robot_id). -/
def LiveUnique (m : RobotManager) : Prop :=
  m.live_robots.Pairwise (fun a b => ¬(a.team_id = b.team_id ∧ a.robot_id = b.robot_id))

/-- Every Engineer in the registry keeps max_blood 300, max_heat 0, heat 0. -/
def EngineerPinned (m : RobotManager) : Prop :=
  ∀ x : Robot, (x ∈ m.live_robots ∨ x ∈ m.dead_robots) →
    x.rtype = RobotType.kEngineer →
    x.max_blood = 300 ∧ x.max_heat = 0 ∧ x.heat = 0

lemma liveKey_iff (t r : Nat) (x : Robot) :
    liveKey t r x = true ↔ (x.team_id = t ∧ x.robot_id = r) := by
  simp [liveKey]

lemma updateFirstLive_pairwise (l : List Robot) (t r : Nat) (y : Robot)
    (hy : liveKey t r y = true)
    (hp : l.Pairwise (fun a b => ¬(a.team_id = b.team_id ∧ a.robot_id = b.robot_id))) :
    (updateFirstLive l t r y).Pairwise
      (fun a b => ¬(a.team_id = b.team_id ∧ a.robot_id = b.robot_id)) := by
  induction l with
  | nil => exact List.Pairwise.nil
  | cons x rest ih =>
    rcases List.pairwise_cons.mp hp with ⟨hx, hrest⟩
    unfold updateFirstLive
    by_cases hxk : liveKey t r x
    · rw [if_pos hxk]
      refine List.pairwise_cons.mpr ⟨?_, hrest⟩
      intro z hz
      have h1 := (liveKey_iff t r x).mp hxk
      have h2 := (liveKey_iff t r y).mp hy
      have h3 := hx z hz
      omega
    · rw [if_neg hxk]
      refine List.pairwise_cons.mpr ⟨?_, ih hrest⟩
      intro z hz
      rcases mem_updateFirstLive rest t r y z hz with hz2 | hz3
      · exact hx z hz2
      · rw [hz3]
        have h1 : ¬(x.team_id = t ∧ x.robot_id = r) := by
          simpa [liveKey_iff] using hxk
        have h2 := (liveKey_iff t r y).mp hy
        omega

lemma mem_decayed (l : List Robot) (d : Nat) (p : Robot → Bool) (a : Robot)
    (ha : a ∈ (l.map (fun x => ChangeHeat x d)).filter p) :
    ∃ x ∈ l, a = ChangeHeat x d := by
  have h1 := (List.mem_filter.mp ha).1
  rcases List.mem_map.mp h1 with ⟨x, hx, rfl⟩
  exact ⟨x, hx, rfl⟩

lemma decay_partition_disjoint (l : List Robot) (d : Nat)
    (hp : l.Pairwise (fun a b => ¬(a.team_id = b.team_id ∧ a.robot_id = b.robot_id))) :
    ∀ a ∈ (l.map (fun x => ChangeHeat x d)).filter (fun x => !(IsDead x)),
    ∀ b ∈ (l.map (fun x => ChangeHeat x d)).filter (fun x => IsDead x),
      ¬(a.team_id = b.team_id ∧ a.robot_id = b.robot_id) := by
  induction l with
  | nil => simp
  | cons x rest ih =>
    rcases List.pairwise_cons.mp hp with ⟨hx, hrest⟩
    intro a ha b hb
    simp only [List.map_cons] at ha hb
    by_cases hdx : IsDead (ChangeHeat x d)
    · rw [List.filter_cons_of_neg (by simp [hdx])] at ha
      rw [List.filter_cons_of_pos (by simp [hdx])] at hb
      rcases List.mem_cons.mp hb with hb2 | hb
      · subst hb2
        rcases mem_decayed rest d _ a ha with ⟨y, hy, rfl⟩
        have h3 := hx y hy
        simp only [ChangeHeat_team_id, ChangeHeat_robot_id]
        omega
      · exact ih hrest a ha b hb
    · rw [List.filter_cons_of_pos (by simp [hdx])] at ha
      rw [List.filter_cons_of_neg (by simp [hdx])] at hb
      rcases List.mem_cons.mp ha with ha2 | ha
      · subst ha2
        rcases mem_decayed rest d _ b hb with ⟨y, hy, rfl⟩
        have h3 := hx y hy
        simp only [ChangeHeat_team_id, ChangeHeat_robot_id]
        omega
      · exact ih hrest a ha b hb

lemma timeChange_inv (m : RobotManager) (curr : Nat)
    (h : LiveDeadDisjoint m ∧ LiveUnique m) :
    LiveDeadDisjoint (HandleTimeChange m curr).1 ∧ LiveUnique (HandleTimeChange m curr).1 := by
  by_cases hc : curr ≤ m.last_time
  · simp only [HandleTimeChange, if_pos hc]
    exact h
  · simp only [HandleTimeChange, if_neg hc, timeStep_eq]
    constructor
    · intro a ha b hb
      rcases List.mem_append.mp hb with hb | hb
      · rcases mem_decayed m.live_robots _ _ a ha with ⟨x, hx, rfl⟩
        have h3 := h.1 x hx b hb
        simp only [ChangeHeat_team_id, ChangeHeat_robot_id, ChangeHeat_rtype]
        exact h3
      · have h3 := decay_partition_disjoint m.live_robots (curr - m.last_time) h.2 a ha b hb
        tauto
    · refine List.Pairwise.filter _ ?_
      refine (List.pairwise_map).mpr ?_
      refine h.2.imp ?_
      intro a b hab
      simpa using hab

lemma no_live_key (m : RobotManager) (t r : Nat) (h : FindLiveRobot m t r = none) :
    ∀ x ∈ m.live_robots, ¬(x.team_id = t ∧ x.robot_id = r) := by
  intro x hx
  have h2 := List.find?_eq_none.mp (by rw [← FindLiveRobot_def]; exact h) x hx
  simpa [liveKey_iff] using h2

lemma live_key_of_find (m : RobotManager) (t r : Nat) (robot : Robot)
    (h : FindLiveRobot m t r = some robot) :
    robot.team_id = t ∧ robot.robot_id = r ∧ robot ∈ m.live_robots := by
  rw [FindLiveRobot_def] at h
  have h1 := List.find?_some h
  have h2 := List.mem_of_find?_eq_some h
  rw [liveKey_iff] at h1
  exact ⟨h1.1, h1.2, h2⟩

lemma dead_key_of_find (m : RobotManager) (t r : Nat) (k : RobotType) (robot : Robot)
    (h : FindDeadRobot m t r k = some robot) :
    robot.team_id = t ∧ robot.robot_id = r ∧ robot.rtype = k ∧ robot ∈ m.dead_robots := by
  have h1 := List.find?_some h
  have h2 := List.mem_of_find?_eq_some h
  simp only [Bool.and_eq_true, liveKey_iff, decide_eq_true_eq] at h1
  exact ⟨h1.1.1, h1.1.2, h1.2, h2⟩

lemma no_dead_key (m : RobotManager) (t r : Nat) (k : RobotType)
    (h : FindDeadRobot m t r k = none) :
    ∀ x ∈ m.dead_robots, ¬(x.team_id = t ∧ x.robot_id = r ∧ x.rtype = k) := by
  intro x hx
  have h2 := List.find?_eq_none.mp h x hx
  simp only [Bool.and_eq_true, liveKey_iff, decide_eq_true_eq, not_and] at h2
  intro hc
  exact h2 ⟨hc.1, hc.2.1⟩ hc.2.2

lemma commandA_inv (m : RobotManager) (t r : Nat) (k : RobotType)
    (h : LiveDeadDisjoint m ∧ LiveUnique m) :
    LiveDeadDisjoint (HandleCommandA m t r k) ∧ LiveUnique (HandleCommandA m t r k) := by
  by_cases hLive : (FindLiveRobot m t r).isSome
  · simp only [HandleCommandA, if_pos hLive]
    exact h
  · have hLiveN : FindLiveRobot m t r = none := Option.not_isSome_iff_eq_none.mp hLive
    have hnokey := no_live_key m t r hLiveN
    cases hDead : FindDeadRobot m t r k with
    | some robot =>
      obtain ⟨hkt, hkr, hkk, hkmem⟩ := dead_key_of_find m t r k robot hDead
      simp only [HandleCommandA, if_neg hLive, hDead]
      constructor
      · intro a ha b hb
        have hbd := List.mem_filter.mp hb
        rcases List.mem_append.mp ha with ha | ha
        · exact h.1 a ha b hbd.1
        · have ha2 : a = Rebuild robot := by simpa using ha
          subst ha2
          have hb2 := hbd.2
          simp [liveKey] at hb2
          simp only [Rebuild_team_id, Rebuild_robot_id, Rebuild_rtype]
          rintro ⟨hc1, hc2, -⟩
          omega
      · refine List.pairwise_append.mpr ⟨h.2, by simp, ?_⟩
        intro a ha b hb
        have hb2 : b = Rebuild robot := by simpa using hb
        subst hb2
        have h1 := hnokey a ha
        simp only [Rebuild_team_id, Rebuild_robot_id]
        omega
    | none =>
      have hnodead := no_dead_key m t r k hDead
      have hmain : ∀ nr : Robot, nr.team_id = t → nr.robot_id = r → nr.rtype = k →
          LiveDeadDisjoint { m with live_robots := m.live_robots ++ [nr] } ∧
          LiveUnique { m with live_robots := m.live_robots ++ [nr] } := by
        intro nr h1 h2 h3
        constructor
        · intro a ha b hb
          rcases List.mem_append.mp ha with ha | ha
          · exact h.1 a ha b hb
          · have ha2 : a = nr := by simpa using ha
            subst ha2
            intro hc
            exact hnodead b hb ⟨hc.1 ▸ h1, hc.2.1 ▸ h2, hc.2.2 ▸ h3⟩
        · refine List.pairwise_append.mpr ⟨h.2, by simp, ?_⟩
          intro a ha b hb
          have hb2 : b = nr := by simpa using hb
          subst hb2
          have h4 := hnokey a ha
          omega
      cases k with
      | kInfantry =>
        simp only [HandleCommandA, if_neg hLive, hDead]
        exact hmain (mkInfantry t r) rfl rfl rfl
      | kEngineer =>
        simp only [HandleCommandA, if_neg hLive, hDead]
        exact hmain (mkEngineer t r) rfl rfl rfl

lemma commandF_inv (m : RobotManager) (t r d : Nat)
    (h : LiveDeadDisjoint m ∧ LiveUnique m) :
    LiveDeadDisjoint (HandleCommandF m t r d).1 ∧ LiveUnique (HandleCommandF m t r d).1 := by
  cases hFind : FindLiveRobot m t r with
  | none =>
    rw [HandleCommandF_no_match m t r d hFind]
    exact h
  | some robot =>
    obtain ⟨hkt, hkr, hkmem⟩ := live_key_of_find m t r robot hFind
    by_cases hdead : IsDead robot
    · rw [HandleCommandF_already_dead m t r d robot hFind hdead]
      exact h
    · have hdead2 : IsDead robot = false := by simpa using hdead
      by_cases h0 : robot.blood ≤ d
      · rw [HandleCommandF_kill m t r d robot hFind hdead2 h0]
        constructor
        · intro a ha b hb
          have had := List.mem_filter.mp ha
          rcases List.mem_append.mp hb with hb | hb
          · exact h.1 a had.1 b hb
          · have hb2 : b = { robot with blood := 0 } := by simpa using hb
            subst hb2
            have ha2 := had.2
            simp [liveKey] at ha2
            rintro ⟨hc1, hc2, -⟩
            simp at hc1 hc2
            omega
        · exact h.2.filter _
      · rw [HandleCommandF_survive m t r d robot hFind hdead2 (by omega)]
        have hkey2 : liveKey t r ({ robot with blood := robot.blood - d } : Robot) = true := by
          simp [liveKey_iff, hkt, hkr]
        constructor
        · intro a ha b hb
          rcases mem_updateFirstLive m.live_robots t r _ a ha with ha2 | ha2
          · exact h.1 a ha2 b hb
          · subst ha2
            have h1 := h.1 robot hkmem b hb
            simp only []
            exact h1
        · exact updateFirstLive_pairwise m.live_robots t r _ hkey2 h.2

lemma commandH_inv (m : RobotManager) (t r a : Nat)
    (h : LiveDeadDisjoint m ∧ LiveUnique m) :
    LiveDeadDisjoint (HandleCommandH m t r a) ∧ LiveUnique (HandleCommandH m t r a) := by
  cases hFind : FindLiveRobot m t r with
  | none =>
    simp only [HandleCommandH, hFind]
    exact h
  | some robot =>
    obtain ⟨hkt, hkr, hkmem⟩ := live_key_of_find m t r robot hFind
    by_cases he : robot.rtype = RobotType.kEngineer
    · simp only [HandleCommandH, hFind, if_pos he]
      exact h
    · simp only [HandleCommandH, hFind, if_neg he]
      have hkey2 : liveKey t r (AddHeat robot a) = true := by
        simp [liveKey_iff, AddHeat, hkt, hkr]
      constructor
      · intro x hx b hb
        rcases mem_updateFirstLive m.live_robots t r _ x hx with hx2 | hx2
        · exact h.1 x hx2 b hb
        · subst hx2
          have h1 := h.1 robot hkmem b hb
          simpa [AddHeat] using h1
      · exact updateFirstLive_pairwise m.live_robots t r _ hkey2 h.2

lemma commandU_inv (m : RobotManager) (t r lvl : Nat)
    (h : LiveDeadDisjoint m ∧ LiveUnique m) :
    LiveDeadDisjoint (HandCommandU m t r lvl) ∧ LiveUnique (HandCommandU m t r lvl) := by
  cases hFind : FindLiveRobot m t r with
  | none =>
    simp only [HandCommandU, hFind]
    exact h
  | some robot =>
    obtain ⟨hkt, hkr, hkmem⟩ := live_key_of_find m t r robot hFind
    by_cases he : robot.rtype = RobotType.kEngineer
    · simp only [HandCommandU, hFind, if_pos he]
      exact h
    · simp only [HandCommandU, hFind, if_neg he]
      have hkey2 : liveKey t r (Upgrade robot lvl) = true := by
        simp [liveKey_iff, hkt, hkr]
      constructor
      · intro x hx b hb
        rcases mem_updateFirstLive m.live_robots t r _ x hx with hx2 | hx2
        · exact h.1 x hx2 b hb
        · subst hx2
          have h1 := h.1 robot hkmem b hb
          simpa using h1
      · exact updateFirstLive_pairwise m.live_robots t r _ hkey2 h.2

lemma dispatch_inv (m : RobotManager) (c : Command)
    (h : LiveDeadDisjoint m ∧ LiveUnique m) :
    LiveDeadDisjoint (dispatch m c).1 ∧ LiveUnique (dispatch m c).1 := by
  cases c with
  | A t r k => exact commandA_inv m t r k h
  | F t r d => exact commandF_inv m t r d h
  | H t r a => exact commandH_inv m t r a h
  | U t r l => exact commandU_inv m t r l h
  | nop => exact h

lemma processRecord_inv (m : RobotManager) (time : Nat) (c : Command)
    (h : LiveDeadDisjoint m ∧ LiveUnique m) :
    LiveDeadDisjoint (processRecord m time c).1 ∧ LiveUnique (processRecord m time c).1 :=
  dispatch_inv _ c (timeChange_inv m time h)

lemma runRecords_inv (recs : List (Nat × Command)) :
    ∀ m : RobotManager, LiveDeadDisjoint m ∧ LiveUnique m →
      LiveDeadDisjoint (runRecords m recs) ∧ LiveUnique (runRecords m recs) := by
  induction recs with
  | nil => intro m h; exact h
  | cons rec rest ih =>
    intro m h
    exact ih _ (processRecord_inv m rec.1 rec.2 h)

/-- C9: in every state reachable from the empty registry by any sequence of
commands and time advancements, live and dead are disjoint — no
(team_id, robot_id, kind) occurs in both — and the live collection holds at
most one entity per (team_id, robot_id), regardless of kind. -/
theorem C9_registry_invariants (m : RobotManager) (h : Reachable m) :
    LiveDeadDisjoint m ∧ LiveUnique m := by
  obtain ⟨recs, hrun⟩ := h
  have hinit : LiveDeadDisjoint initManager ∧ LiveUnique initManager := by
    constructor
    · intro a ha
      simp [initManager] at ha
    · simp [initManager, LiveUnique]
  exact hrun ▸ runRecords_inv recs initManager hinit

/-- The records that produce the C9 witness state: a live Infantry (1, 1), a
live Engineer (1, 2), then the Infantry is destroyed by damage. -/
def recsC9 : List (Nat × Command) :=
  [(0, Command.A 1 1 RobotType.kInfantry), (0, Command.A 1 2 RobotType.kEngineer),
   (5, Command.F 1 1 200)]

/-- The C9 witness state: one live Engineer and one dead Infantry. -/
def mC9 : RobotManager := runRecords initManager recsC9

/-- C9 witness: the invariants hold of the concrete reachable state with one
live Engineer and one dead Infantry. -/
theorem C9_registry_invariants_witness : LiveDeadDisjoint mC9 ∧ LiveUnique mC9 :=
  C9_registry_invariants mC9 ⟨recsC9, rfl⟩

/-! Preservation of the Engineer attribute pinning. -/

@[simp] lemma mkInfantry_rtype (t r : Nat) : (mkInfantry t r).rtype = RobotType.kInfantry := rfl

@[simp] lemma mkEngineer_rtype (t r : Nat) : (mkEngineer t r).rtype = RobotType.kEngineer := rfl

lemma engineer_pinned_decay (y : Robot) (d : Nat)
    (h : y.max_blood = 300 ∧ y.max_heat = 0 ∧ y.heat = 0) :
    (ChangeHeat y d).max_blood = 300 ∧ (ChangeHeat y d).max_heat = 0 ∧
      (ChangeHeat y d).heat = 0 := by
  refine ⟨by simp [h.1], by simp [h.2.1], ?_⟩
  simp [ChangeHeat, h.2.2]

lemma engineer_timeChange (m : RobotManager) (curr : Nat) (h : EngineerPinned m) :
    EngineerPinned (HandleTimeChange m curr).1 := by
  by_cases hc : curr ≤ m.last_time
  · simp only [HandleTimeChange, if_pos hc]
    exact h
  · simp only [HandleTimeChange, if_neg hc, timeStep_eq]
    intro x hx he
    rcases hx with hx | hx
    · rcases mem_decayed m.live_robots _ _ x hx with ⟨y, hy, rfl⟩
      rw [ChangeHeat_rtype] at he
      exact engineer_pinned_decay y _ (h y (Or.inl hy) he)
    · rcases List.mem_append.mp hx with hx | hx
      · exact h x (Or.inr hx) he
      · rcases mem_decayed m.live_robots _ _ x hx with ⟨y, hy, rfl⟩
        rw [ChangeHeat_rtype] at he
        exact engineer_pinned_decay y _ (h y (Or.inl hy) he)

lemma engineer_commandA (m : RobotManager) (t r : Nat) (k : RobotType)
    (h : EngineerPinned m) : EngineerPinned (HandleCommandA m t r k) := by
  by_cases hLive : (FindLiveRobot m t r).isSome
  · simp only [HandleCommandA, if_pos hLive]
    exact h
  · cases hDead : FindDeadRobot m t r k with
    | some robot =>
      obtain ⟨-, -, -, hkmem⟩ := dead_key_of_find m t r k robot hDead
      simp only [HandleCommandA, if_neg hLive, hDead]
      intro x hx he
      rcases hx with hx | hx
      · rcases List.mem_append.mp hx with hx | hx
        · exact h x (Or.inl hx) he
        · have hx2 : x = Rebuild robot := by simpa using hx
          subst hx2
          rw [Rebuild_rtype] at he
          have h4 := Rebuild_engineer robot he
          exact ⟨h4.1, h4.2.2.2, h4.2.2.1⟩
      · exact h x (Or.inr (List.mem_filter.mp hx).1) he
    | none =>
      cases k with
      | kInfantry =>
        simp only [HandleCommandA, if_neg hLive, hDead]
        intro x hx he
        rcases hx with hx | hx
        · rcases List.mem_append.mp hx with hx | hx
          · exact h x (Or.inl hx) he
          · have hx2 : x = mkInfantry t r := by simpa using hx
            subst hx2
            simp at he
        · exact h x (Or.inr hx) he
      | kEngineer =>
        simp only [HandleCommandA, if_neg hLive, hDead]
        intro x hx he
        rcases hx with hx | hx
        · rcases List.mem_append.mp hx with hx | hx
          · exact h x (Or.inl hx) he
          · have hx2 : x = mkEngineer t r := by simpa using hx
            subst hx2
            exact ⟨rfl, rfl, rfl⟩
        · exact h x (Or.inr hx) he

lemma engineer_commandF (m : RobotManager) (t r d : Nat)
    (h : EngineerPinned m) : EngineerPinned (HandleCommandF m t r d).1 := by
  cases hFind : FindLiveRobot m t r with
  | none =>
    rw [HandleCommandF_no_match m t r d hFind]
    exact h
  | some robot =>
    obtain ⟨-, -, hkmem⟩ := live_key_of_find m t r robot hFind
    by_cases hdead : IsDead robot
    · rw [HandleCommandF_already_dead m t r d robot hFind hdead]
      exact h
    · have hdead2 : IsDead robot = false := by simpa using hdead
      by_cases h0 : robot.blood ≤ d
      · rw [HandleCommandF_kill m t r d robot hFind hdead2 h0]
        intro x hx he
        rcases hx with hx | hx
        · exact h x (Or.inl (List.mem_filter.mp hx).1) he
        · rcases List.mem_append.mp hx with hx | hx
          · exact h x (Or.inr hx) he
          · have hx2 : x = { robot with blood := 0 } := by simpa using hx
            subst hx2
            have h4 := h robot (Or.inl hkmem) (by simpa using he)
            simpa using h4
      · rw [HandleCommandF_survive m t r d robot hFind hdead2 (by omega)]
        intro x hx he
        rcases hx with hx | hx
        · rcases mem_updateFirstLive m.live_robots t r _ x hx with hx2 | hx2
          · exact h x (Or.inl hx2) he
          · subst hx2
            have h4 := h robot (Or.inl hkmem) (by simpa using he)
            simpa using h4
        · exact h x (Or.inr hx) he

lemma engineer_commandH (m : RobotManager) (t r a : Nat)
    (h : EngineerPinned m) : EngineerPinned (HandleCommandH m t r a) := by
  cases hFind : FindLiveRobot m t r with
  | none =>
    simp only [HandleCommandH, hFind]
    exact h
  | some robot =>
    by_cases he2 : robot.rtype = RobotType.kEngineer
    · simp only [HandleCommandH, hFind, if_pos he2]
      exact h
    · simp only [HandleCommandH, hFind, if_neg he2]
      intro x hx he
      rcases hx with hx | hx
      · rcases mem_updateFirstLive m.live_robots t r _ x hx with hx2 | hx2
        · exact h x (Or.inl hx2) he
        · subst hx2
          rw [AddHeat_rtype] at he
          exact absurd he he2
      · exact h x (Or.inr hx) he

lemma engineer_commandU (m : RobotManager) (t r lvl : Nat)
    (h : EngineerPinned m) : EngineerPinned (HandCommandU m t r lvl) := by
  cases hFind : FindLiveRobot m t r with
  | none =>
    simp only [HandCommandU, hFind]
    exact h
  | some robot =>
    by_cases he2 : robot.rtype = RobotType.kEngineer
    · simp only [HandCommandU, hFind, if_pos he2]
      exact h
    · simp only [HandCommandU, hFind, if_neg he2]
      intro x hx he
      rcases hx with hx | hx
      · rcases mem_updateFirstLive m.live_robots t r _ x hx with hx2 | hx2
        · exact h x (Or.inl hx2) he
        · subst hx2
          rw [Upgrade_rtype] at he
          exact absurd he he2
      · exact h x (Or.inr hx) he

lemma engineer_dispatch (m : RobotManager) (c : Command) (h : EngineerPinned m) :
    EngineerPinned (dispatch m c).1 := by
  cases c with
  | A t r k => exact engineer_commandA m t r k h
  | F t r d => exact engineer_commandF m t r d h
  | H t r a => exact engineer_commandH m t r a h
  | U t r l => exact engineer_commandU m t r l h
  | nop => exact h

lemma engineer_processRecord (m : RobotManager) (time : Nat) (c : Command)
    (h : EngineerPinned m) : EngineerPinned (processRecord m time c).1 :=
  engineer_dispatch _ c (engineer_timeChange m time h)

lemma engineer_runRecords (recs : List (Nat × Command)) :
    ∀ m : RobotManager, EngineerPinned m → EngineerPinned (runRecords m recs) := by
  induction recs with
  | nil => intro m h; exact h
  | cons rec rest ih =>
    intro m h
    exact ih _ (engineer_processRecord m rec.1 rec.2 h)

/-- C8: HEAT and UPGRADE commands addressed to a live Engineer change nothing
at all, and in every reachable registry state every Engineer has
max_health = 300, max_heat = 0 and heat = 0. -/
theorem C8_engineer_frame :
    (∀ (m : RobotManager) (t r a lvl : Nat) (robot : Robot),
       FindLiveRobot m t r = some robot → robot.rtype = RobotType.kEngineer →
       HandleCommandH m t r a = m ∧ HandCommandU m t r lvl = m) ∧
    (∀ m : RobotManager, Reachable m → EngineerPinned m) := by
  constructor
  · intro m t r a lvl robot hFind hEng
    constructor
    · simp [HandleCommandH, hFind, hEng]
    · simp [HandCommandU, hFind, hEng]
  · intro m h
    obtain ⟨recs, hrun⟩ := h
    have hinit : EngineerPinned initManager := by
      intro x hx
      simp [initManager] at hx
    exact hrun ▸ engineer_runRecords recs initManager hinit

/-- The records that produce the C8 witness state: one live Engineer (2, 3). -/
def recsC8 : List (Nat × Command) := [(0, Command.A 2 3 RobotType.kEngineer)]

/-- The C8 witness state. -/
def mC8 : RobotManager := runRecords initManager recsC8

/-- C8 witness: HEAT 40 and UPGRADE 3 against the live Engineer (2, 3) leave
the registry unchanged, and that Engineer carries the pinned attributes. -/
theorem C8_engineer_frame_witness :
    FindLiveRobot mC8 2 3 = some (mkEngineer 2 3) ∧
    (mkEngineer 2 3).rtype = RobotType.kEngineer ∧
    (HandleCommandH mC8 2 3 40 = mC8 ∧ HandCommandU mC8 2 3 3 = mC8) ∧
    ((mkEngineer 2 3).max_blood = 300 ∧ (mkEngineer 2 3).max_heat = 0 ∧
     (mkEngineer 2 3).heat = 0) :=
  ⟨by decide, by decide,
   C8_engineer_frame.1 mC8 2 3 40 3 (mkEngineer 2 3) (by decide) (by decide),
   C8_engineer_frame.2 mC8 ⟨recsC8, rfl⟩ (mkEngineer 2 3) (Or.inl (by decide)) (by decide)⟩

end RobotSim
